import Mathlib

/-
Verification of the cart reconciliation logic of the super-app client.

The repository implements the same list-reconciliation logic twice:
  - `ShoppingScreen` (src/app/(tabs)/profile.tsx): `addToCart`,
    `decreaseQuantity` (remove-at-zero policy), `removeFromCart`,
    `totalCartItems`.
  - `CartScreen` (the cart screen bundled in src/app/(auth)/Login.tsx):
    `increaseQuantity`, `decreaseQuantity` (clamp-at-1 policy),
    `removeItem`, `totalAmount`.

We embed both verbatim over lists of cart lines. Item identities are an
arbitrary type with decidable equality (the source uses string ids on one
screen and numeric ids on the other); quantities are integers (JS numbers
used integrally); prices are rationals (the decimal prices in the sources
and the spec are exactly representable).
-/

set_option linter.unusedSectionVars false
set_option linter.unnecessarySeqFocus false

namespace SuperApp

structure Item (α : Type) where
  id : α
  price : ℚ
deriving DecidableEq, Repr

structure CartLine (α : Type) where
  item : Item α
  quantity : ℤ
deriving DecidableEq, Repr

abbrev Cart (α : Type) := List (CartLine α)

namespace ShoppingScreen

variable {α : Type} [DecidableEq α]

/-- `addToCart(product)` from profile.tsx: if a line with the product's id
exists, increment its quantity; otherwise append a new line with quantity 1. -/
def addToCart (product : Item α) (cart : Cart α) : Cart α :=
  if (cart.find? fun l => decide (l.item.id = product.id)).isSome then
    cart.map fun l =>
      if l.item.id = product.id then { l with quantity := l.quantity + 1 } else l
  else
    cart ++ [{ item := product, quantity := 1 }]

/-- `decreaseQuantity(productId)` from profile.tsx: decrement the matching
line's quantity, then drop every line whose quantity is not positive
(remove-at-zero policy). -/
def decreaseQuantity (productId : α) (cart : Cart α) : Cart α :=
  (cart.map fun l =>
      if l.item.id = productId then { l with quantity := l.quantity - 1 } else l).filter
    fun l => decide (0 < l.quantity)

/-- `removeFromCart(productId)` from profile.tsx: drop the line with this id. -/
def removeFromCart (productId : α) (cart : Cart α) : Cart α :=
  cart.filter fun l => decide (l.item.id ≠ productId)

/-- `totalCartItems` from profile.tsx: reduce summing the quantities. -/
def totalCartItems (cart : Cart α) : ℤ :=
  cart.foldl (fun sum l => sum + l.quantity) 0

end ShoppingScreen

namespace CartScreen

variable {α : Type} [DecidableEq α]

/-- `increaseQuantity(id)` from the cart screen: map incrementing the
matching line's quantity. -/
def increaseQuantity (id : α) (cart : Cart α) : Cart α :=
  cart.map fun l =>
    if l.item.id = id then { l with quantity := l.quantity + 1 } else l

/-- `decreaseQuantity(id)` from the cart screen: `newQuantity = quantity - 1`,
kept if positive, else clamped to 1 (clamp policy with floor 1). -/
def decreaseQuantity (id : α) (cart : Cart α) : Cart α :=
  cart.map fun l =>
    if l.item.id = id then
      { l with quantity := if 0 < l.quantity - 1 then l.quantity - 1 else 1 }
    else l

/-- `removeItem(id)` from the cart screen: drop the line with this id. -/
def removeItem (id : α) (cart : Cart α) : Cart α :=
  cart.filter fun l => decide (l.item.id ≠ id)

/-- `totalAmount` from the cart screen: reduce summing price times quantity. -/
def totalAmount (cart : Cart α) : ℚ :=
  cart.foldl (fun sum l => sum + l.item.price * (l.quantity : ℚ)) 0

end CartScreen

variable {α : Type} [DecidableEq α]

/-- The triple returned by the spec's `computeTotals()`. -/
structure Totals where
  lineCount : ℕ
  totalQuantity : ℤ
  totalAmount : ℚ
deriving DecidableEq, Repr

/-- `computeTotals()`: the derived aggregate of the cart. The two numeric
fields are the source reductions (`totalAmount` of the cart screen,
`totalCartItems` of the shopping screen); the line count is the length of
the rendered list. -/
def computeTotals (cart : Cart α) : Totals :=
  { lineCount := cart.length
    totalQuantity := ShoppingScreen.totalCartItems cart
    totalAmount := CartScreen.totalAmount cart }

/-- One application of any of the reconciler operations implemented in the
source, relating a cart to its successor. -/
inductive Step : Cart α → Cart α → Prop
  | add (p : Item α) (c : Cart α) : Step c (ShoppingScreen.addToCart p c)
  | inc (k : α) (c : Cart α) : Step c (CartScreen.increaseQuantity k c)
  | decClamp (k : α) (c : Cart α) : Step c (CartScreen.decreaseQuantity k c)
  | decRemove (k : α) (c : Cart α) : Step c (ShoppingScreen.decreaseQuantity k c)
  | removeShop (k : α) (c : Cart α) : Step c (ShoppingScreen.removeFromCart k c)
  | removeCart (k : α) (c : Cart α) : Step c (CartScreen.removeItem k c)

/-- Carts reachable from the empty cart by finite sequences of operations. -/
inductive Reachable : Cart α → Prop
  | empty : Reachable []
  | step {c c' : Cart α} : Reachable c → Step c c' → Reachable c'

/-- No two lines of the cart share an item identity. -/
def Uniq (c : Cart α) : Prop :=
  c.Pairwise fun a b => a.item.id ≠ b.item.id

/-- Every line of the cart has quantity at least 1. -/
def QtyPos (c : Cart α) : Prop :=
  ∀ l ∈ c, 1 ≤ l.quantity

instance (c : Cart α) : Decidable (Uniq c) := by
  unfold Uniq; infer_instance

instance (c : Cart α) : Decidable (QtyPos c) := by
  unfold QtyPos; infer_instance

/-- A concrete reachable cart used to witness C2. -/
def c2cart : Cart ℤ :=
  ShoppingScreen.addToCart ⟨2, 4⟩ (ShoppingScreen.addToCart ⟨1, 10⟩ [])

/-- A concrete one-line cart without identity 3, used to witness C3. -/
def c3cart : Cart ℤ := [⟨⟨5, 1⟩, 1⟩]

/-- A concrete cart with the id-1 line at quantity 1, used to witness C5. -/
def c5cart : Cart ℤ := [⟨⟨1, 10⟩, 1⟩, ⟨⟨2, 4⟩, 2⟩]

/-- A concrete two-line cart used to witness C6. -/
def c6cart : Cart ℤ := [⟨⟨1, 10⟩, 2⟩, ⟨⟨2, 4⟩, 1⟩]

/-- A concrete reachable cart used to witness C9. -/
def c9cart : Cart ℤ :=
  ShoppingScreen.decreaseQuantity 1
    (ShoppingScreen.addToCart ⟨1, 10⟩ (ShoppingScreen.addToCart ⟨1, 10⟩ []))

/-- A concrete two-line cart used to witness C10. -/
def c10cart : Cart ℤ := [⟨⟨1, 10⟩, 1⟩, ⟨⟨2, 4⟩, 2⟩]

/-- The scenario item with id 1 and price 10.00. -/
def demoItem1 : Item ℤ := ⟨1, 10⟩

/-- The scenario item with id 2 and price 5.50. -/
def demoItem2 : Item ℤ := ⟨2, 5.5⟩

/-- The scenario cart after adding item 1 once. -/
def demoCart1 : Cart ℤ := ShoppingScreen.addToCart demoItem1 []

/-- The scenario cart after adding item 1 twice. -/
def demoCart2 : Cart ℤ := ShoppingScreen.addToCart demoItem1 demoCart1

/-- The scenario cart after also adding item 2. -/
def demoCart3 : Cart ℤ := ShoppingScreen.addToCart demoItem2 demoCart2

/-- The scenario cart after one remove-at-zero decrement of id 1. -/
def demoCart4 : Cart ℤ := ShoppingScreen.decreaseQuantity 1 demoCart3

/-- The scenario cart after a second remove-at-zero decrement of id 1. -/
def demoCart5 : Cart ℤ := ShoppingScreen.decreaseQuantity 1 demoCart4

/-- A left fold that adds `f` of each element equals the initial value plus
the sum of the mapped list. -/
lemma foldl_add_eq_sum {γ β : Type} [AddCommMonoid β] (f : γ → β) :
    ∀ (c : List γ) (a : β), c.foldl (fun s l => s + f l) a = a + (c.map f).sum := by
  intro c
  induction c with
  | nil => intro a; simp
  | cons x xs ih => intro a; simp [ih, add_assoc]

/-- Mapping a function that fixes every element of a list is the identity. -/
lemma map_noop {γ : Type} (g : γ → γ) (c : List γ) (h : ∀ l ∈ c, g l = l) :
    c.map g = c := by
  induction c with
  | nil => rfl
  | cons x xs ih =>
    rw [List.map_cons, h x (List.mem_cons_self x xs),
      ih fun l hl => h l (List.mem_cons_of_mem x hl)]

example : ShoppingScreen.addToCart (⟨1, 10⟩ : Item ℤ) [] = [⟨⟨1, 10⟩, 1⟩] := by decide

example :
    ShoppingScreen.decreaseQuantity 1 [⟨⟨(1 : ℤ), 10⟩, 1⟩, ⟨⟨2, 5.5⟩, 1⟩]
      = [⟨⟨2, 5.5⟩, 1⟩] := by
  simp [ShoppingScreen.decreaseQuantity]

example : CartScreen.decreaseQuantity 1 [⟨⟨(1 : ℤ), 10⟩, 1⟩] = [⟨⟨1, 10⟩, 1⟩] := by
  simp [CartScreen.decreaseQuantity]

example : computeTotals [⟨⟨(1 : ℤ), 10⟩, 2⟩, ⟨⟨2, 5.5⟩, 1⟩] = ⟨2, 3, 25.5⟩ := by
  simp [computeTotals, ShoppingScreen.totalCartItems, CartScreen.totalAmount]
  norm_num

/-- C1: for every cart, `computeTotals` reports a total amount equal to the
sum over the lines of price times quantity, a total quantity equal to the
sum of the quantities, and a line count equal to the number of lines.
`computeTotals` is a pure function of the cart, so computing the totals
leaves the cart unchanged by construction. -/
theorem C1_computeTotals_correct (c : Cart α) :
    (computeTotals c).totalAmount
        = (c.map fun l => l.item.price * (l.quantity : ℚ)).sum ∧
    (computeTotals c).totalQuantity = (c.map fun l => l.quantity).sum ∧
    (computeTotals c).lineCount = c.length := by
  refine ⟨?_, ?_, rfl⟩ <;>
    simp [computeTotals, CartScreen.totalAmount, ShoppingScreen.totalCartItems,
      foldl_add_eq_sum]

/-- C7: removing any identity from the empty cart is a no-op (on both
screens), and the totals of the result are zero lines, zero quantity,
zero amount. -/
theorem C7_remove_on_empty (A : α) :
    ShoppingScreen.removeFromCart A ([] : Cart α) = [] ∧
    CartScreen.removeItem A ([] : Cart α) = [] ∧
    computeTotals (ShoppingScreen.removeFromCart A ([] : Cart α)) = ⟨0, 0, 0⟩ :=
  ⟨rfl, rfl, rfl⟩

/-- The clamp-policy decrement fixes a singleton cart at quantity 1. -/
lemma clampDec_singleton_fixed (A : Item α) :
    CartScreen.decreaseQuantity A.id [⟨A, 1⟩] = [⟨A, 1⟩] := by
  simp [CartScreen.decreaseQuantity]

/-- C4: under the clamp policy, decrementing a cart holding only item `A` at
quantity 1 any positive number of times leaves the cart with that single
line still at quantity 1: the line is never deleted and never reaches 0. -/
theorem C4_clamp_idempotent_at_floor (A : Item α) (n : ℕ) (_h : 1 ≤ n) :
    (CartScreen.decreaseQuantity A.id)^[n] [⟨A, 1⟩] = [⟨A, 1⟩] :=
  Function.iterate_fixed (clampDec_singleton_fixed A) n

/-- Witness for C4 at a concrete item and three repetitions. -/
theorem C4_witness :
    1 ≤ 3 ∧
    (CartScreen.decreaseQuantity ((⟨7, 10⟩ : Item ℤ)).id)^[3] [⟨⟨7, 10⟩, 1⟩]
      = [⟨⟨7, 10⟩, 1⟩] :=
  ⟨by norm_num, C4_clamp_idempotent_at_floor ⟨7, 10⟩ 3 (by norm_num)⟩

/-- The remove-at-zero decrement of an identity absent from the cart is the
identity map, provided every quantity in the cart is positive. -/
lemma shopDec_of_no_match (k : α) (c : Cart α)
    (habs : ∀ l ∈ c, l.item.id ≠ k) (hq : ∀ l ∈ c, 0 < l.quantity) :
    ShoppingScreen.decreaseQuantity k c = c := by
  unfold ShoppingScreen.decreaseQuantity
  rw [map_noop _ _ fun l hl => if_neg (habs l hl)]
  exact List.filter_eq_self.mpr fun l hl => decide_eq_true (hq l hl)

/-- C6: every reconciler operation is a total function (each is defined as a
Lean function on all carts and identities), and on a cart of the data model
(all quantities at least 1) holding no line with identity `k`, increment,
both decrements, and both removes return the cart unchanged. -/
theorem C6_unknown_identity_noop (c : Cart α) (k : α) (hq : QtyPos c)
    (habs : ∀ l ∈ c, l.item.id ≠ k) :
    CartScreen.increaseQuantity k c = c ∧
    CartScreen.decreaseQuantity k c = c ∧
    ShoppingScreen.decreaseQuantity k c = c ∧
    ShoppingScreen.removeFromCart k c = c ∧
    CartScreen.removeItem k c = c := by
  refine ⟨?_, ?_, ?_, ?_, ?_⟩
  · exact map_noop _ _ fun l hl => if_neg (habs l hl)
  · exact map_noop _ _ fun l hl => if_neg (habs l hl)
  · exact shopDec_of_no_match k c habs fun l hl => lt_of_lt_of_le one_pos (hq l hl)
  · exact List.filter_eq_self.mpr fun l hl => decide_eq_true (habs l hl)
  · exact List.filter_eq_self.mpr fun l hl => decide_eq_true (habs l hl)

/-- Witness for C6 at a concrete cart holding ids 1 and 2 and the absent
identity 9. -/
theorem C6_witness :
    QtyPos c6cart ∧ (∀ l ∈ c6cart, l.item.id ≠ 9) ∧
    CartScreen.increaseQuantity 9 c6cart = c6cart ∧
    CartScreen.decreaseQuantity 9 c6cart = c6cart ∧
    ShoppingScreen.decreaseQuantity 9 c6cart = c6cart ∧
    ShoppingScreen.removeFromCart 9 c6cart = c6cart ∧
    CartScreen.removeItem 9 c6cart = c6cart :=
  ⟨by decide, by decide,
    C6_unknown_identity_noop c6cart 9 (by decide) (by decide)⟩

/-- Filtering after a map that fixes every element kept by the filter and
preserves the filter's verdict equals filtering the original list. -/
lemma filter_map_frame {γ : Type} (g : γ → γ) (p : γ → Bool)
    (hp : ∀ l, p (g l) = p l) (hg : ∀ l, p l = true → g l = l) :
    ∀ c : List γ, (c.map g).filter p = c.filter p := by
  intro c
  induction c with
  | nil => rfl
  | cons x xs ih =>
    rw [List.map_cons, List.filter_cons, List.filter_cons, hp x]
    cases hx : p x
    · simpa using ih
    · rw [hg x hx]
      simpa using ih

/-- The remove-at-zero decrement leaves the subsequence of lines with a
different identity unchanged, provided quantities are at least 1. -/
lemma shopDec_frame (k : α) :
    ∀ c : Cart α, QtyPos c →
      (ShoppingScreen.decreaseQuantity k c).filter (fun l => decide (l.item.id ≠ k))
        = c.filter fun l => decide (l.item.id ≠ k) := by
  intro c
  induction c with
  | nil => intro _; rfl
  | cons x xs ih =>
    intro hq
    have hxs : QtyPos xs := fun l hl => hq l (List.mem_cons_of_mem x hl)
    have hx1 : 1 ≤ x.quantity := hq x (List.mem_cons_self x xs)
    have ihx := ih hxs
    unfold ShoppingScreen.decreaseQuantity at ihx ⊢
    by_cases hx : x.item.id = k
    · by_cases h0 : (0 : ℤ) < x.quantity - 1 <;>
        simpa [List.filter_cons, hx, h0] using ihx
    · have hpos : (0 : ℤ) < x.quantity := lt_of_lt_of_le one_pos hx1
      simpa [List.filter_cons, hx, hpos] using ihx

/-- C10: on a data-model cart (unique identities, quantities at least 1),
both decrements and both removes leave every line with a different identity
unchanged and in its original relative order: the subsequence of lines whose
identity differs from `k` is the same before and after. -/
theorem C10_frame_property (c : Cart α) (k : α) (_hu : Uniq c) (hq : QtyPos c) :
    (ShoppingScreen.decreaseQuantity k c).filter (fun l => decide (l.item.id ≠ k))
        = c.filter (fun l => decide (l.item.id ≠ k)) ∧
    (CartScreen.decreaseQuantity k c).filter (fun l => decide (l.item.id ≠ k))
        = c.filter (fun l => decide (l.item.id ≠ k)) ∧
    ShoppingScreen.removeFromCart k c = c.filter (fun l => decide (l.item.id ≠ k)) ∧
    CartScreen.removeItem k c = c.filter (fun l => decide (l.item.id ≠ k)) := by
  refine ⟨shopDec_frame k c hq, ?_, rfl, rfl⟩
  exact filter_map_frame _ _
    (fun l => by by_cases hl : l.item.id = k <;> simp [hl])
    (fun l hl => if_neg (by simpa using hl)) c

/-- Witness for C10 at a concrete cart holding ids 1 and 2, targeting id 1. -/
theorem C10_witness :
    Uniq c10cart ∧ QtyPos c10cart ∧
    ((ShoppingScreen.decreaseQuantity 1 c10cart).filter
          (fun l => decide (l.item.id ≠ 1))
        = c10cart.filter (fun l => decide (l.item.id ≠ 1)) ∧
      (CartScreen.decreaseQuantity 1 c10cart).filter
          (fun l => decide (l.item.id ≠ 1))
        = c10cart.filter (fun l => decide (l.item.id ≠ 1)) ∧
      ShoppingScreen.removeFromCart 1 c10cart
        = c10cart.filter (fun l => decide (l.item.id ≠ 1)) ∧
      CartScreen.removeItem 1 c10cart
        = c10cart.filter (fun l => decide (l.item.id ≠ 1))) :=
  ⟨by decide, by decide, C10_frame_property c10cart 1 (by decide) (by decide)⟩

/-- A map that preserves each line's item preserves identity uniqueness. -/
lemma uniq_map_of_item_eq {g : CartLine α → CartLine α}
    (hg : ∀ l, (g l).item = l.item) {c : Cart α} (h : Uniq c) :
    Uniq (c.map g) := by
  rw [Uniq, List.pairwise_map]
  exact h.imp fun hab => by simpa [hg] using hab

/-- Filtering preserves identity uniqueness. -/
lemma filter_uniq (p : CartLine α → Bool) {c : Cart α} (h : Uniq c) :
    Uniq (c.filter p) :=
  List.Pairwise.sublist (List.filter_sublist c) h

/-- `addToCart` preserves identity uniqueness: an existing line is updated in
place, and a genuinely new identity is appended. -/
lemma addToCart_uniq (p : Item α) {c : Cart α} (h : Uniq c) :
    Uniq (ShoppingScreen.addToCart p c) := by
  unfold ShoppingScreen.addToCart
  split
  · exact uniq_map_of_item_eq
      (fun l => by by_cases hl : l.item.id = p.id <;> simp [hl]) h
  · rename_i hnone
    have hn : (c.find? fun l => decide (l.item.id = p.id)) = none := by
      cases hfind : c.find? fun l => decide (l.item.id = p.id)
      · rfl
      · exact absurd (by simp [hfind]) hnone
    rw [Uniq, List.pairwise_append]
    refine ⟨h, by simp, ?_⟩
    intro a ha b hb
    simp only [List.mem_singleton] at hb
    subst hb
    have := List.find?_eq_none.mp hn a ha
    simpa using this

/-- `increaseQuantity` preserves identity uniqueness. -/
lemma inc_uniq (k : α) {c : Cart α} (h : Uniq c) :
    Uniq (CartScreen.increaseQuantity k c) := by
  unfold CartScreen.increaseQuantity
  exact uniq_map_of_item_eq
    (fun l => by by_cases hl : l.item.id = k <;> simp [hl]) h

/-- The clamp decrement preserves identity uniqueness. -/
lemma clampDec_uniq (k : α) {c : Cart α} (h : Uniq c) :
    Uniq (CartScreen.decreaseQuantity k c) := by
  unfold CartScreen.decreaseQuantity
  exact uniq_map_of_item_eq
    (fun l => by by_cases hl : l.item.id = k <;> simp [hl]) h

/-- The remove-at-zero decrement preserves identity uniqueness. -/
lemma shopDec_uniq (k : α) {c : Cart α} (h : Uniq c) :
    Uniq (ShoppingScreen.decreaseQuantity k c) := by
  unfold ShoppingScreen.decreaseQuantity
  exact filter_uniq _ (uniq_map_of_item_eq
    (fun l => by by_cases hl : l.item.id = k <;> simp [hl]) h)

/-- C2: every cart reachable from the empty cart by the reconciler
operations has pairwise distinct item identities. -/
theorem C2_identity_unique_invariant {c : Cart α} (h : Reachable c) : Uniq c := by
  induction h with
  | empty => exact List.Pairwise.nil
  | step _ hs ih =>
    cases hs with
    | add p c => exact addToCart_uniq p ih
    | inc k c => exact inc_uniq k ih
    | decClamp k c => exact clampDec_uniq k ih
    | decRemove k c => exact shopDec_uniq k ih
    | removeShop k c => exact filter_uniq _ ih
    | removeCart k c => exact filter_uniq _ ih

/-- Witness for C2 at a concrete two-step reachable cart. -/
theorem C2_witness : Reachable c2cart ∧ Uniq c2cart :=
  have hr : Reachable c2cart :=
    Reachable.step (Reachable.step Reachable.empty (Step.add _ _)) (Step.add _ _)
  ⟨hr, C2_identity_unique_invariant hr⟩

/-- A map that does not drop any quantity below 1 preserves the quantity
floor. -/
lemma qtypos_map {g : CartLine α → CartLine α}
    (hg : ∀ l, 1 ≤ l.quantity → 1 ≤ (g l).quantity) {c : Cart α}
    (h : QtyPos c) : QtyPos (c.map g) := by
  intro l hl
  rcases List.mem_map.mp hl with ⟨m, hm, rfl⟩
  exact hg m (h m hm)

/-- Filtering preserves the quantity floor. -/
lemma filter_qtypos (p : CartLine α → Bool) {c : Cart α} (h : QtyPos c) :
    QtyPos (c.filter p) :=
  fun l hl => h l (List.mem_filter.mp hl).1

/-- `addToCart` preserves the quantity floor. -/
lemma addToCart_qtypos (p : Item α) {c : Cart α} (h : QtyPos c) :
    QtyPos (ShoppingScreen.addToCart p c) := by
  unfold ShoppingScreen.addToCart
  split
  · refine qtypos_map (fun l hl => ?_) h
    by_cases hid : l.item.id = p.id <;> simp [hid] <;> omega
  · intro l hl
    rcases List.mem_append.mp hl with hl | hl
    · exact h l hl
    · simp only [List.mem_singleton] at hl
      subst hl
      exact le_refl 1

/-- `increaseQuantity` preserves the quantity floor. -/
lemma inc_qtypos (k : α) {c : Cart α} (h : QtyPos c) :
    QtyPos (CartScreen.increaseQuantity k c) := by
  unfold CartScreen.increaseQuantity
  refine qtypos_map (fun l hl => ?_) h
  by_cases hid : l.item.id = k <;> simp [hid] <;> omega

/-- The clamp decrement keeps every quantity at 1 or above. -/
lemma clampDec_qtypos (k : α) {c : Cart α} (h : QtyPos c) :
    QtyPos (CartScreen.decreaseQuantity k c) := by
  unfold CartScreen.decreaseQuantity
  refine qtypos_map (fun l hl => ?_) h
  by_cases hid : l.item.id = k
  · by_cases h0 : (0 : ℤ) < l.quantity - 1 <;> simp [hid, h0] <;> omega
  · simpa [hid] using hl

/-- The remove-at-zero decrement keeps only lines with positive quantity,
so every surviving quantity is at least 1. -/
lemma shopDec_qtypos (k : α) (c : Cart α) :
    QtyPos (ShoppingScreen.decreaseQuantity k c) := by
  intro l hl
  unfold ShoppingScreen.decreaseQuantity at hl
  have := (List.mem_filter.mp hl).2
  simp only [decide_eq_true_eq] at this
  omega

/-- C9: every cart reachable from the empty cart by the reconciler
operations has every line's quantity at least 1: the clamp decrement never
goes below its floor, and the remove-at-zero decrement deletes any line
whose quantity would reach 0. -/
theorem C9_quantity_floor_invariant {c : Cart α} (h : Reachable c) : QtyPos c := by
  induction h with
  | empty => intro l hl; cases hl
  | step _ hs ih =>
    cases hs with
    | add p c => exact addToCart_qtypos p ih
    | inc k c => exact inc_qtypos k ih
    | decClamp k c => exact clampDec_qtypos k ih
    | decRemove k c => exact shopDec_qtypos k _
    | removeShop k c => exact filter_qtypos _ ih
    | removeCart k c => exact filter_qtypos _ ih

/-- Witness for C9 at a concrete three-step reachable cart. -/
theorem C9_witness : Reachable c9cart ∧ QtyPos c9cart :=
  have hr : Reachable c9cart :=
    Reachable.step
      (Reachable.step (Reachable.step Reachable.empty (Step.add _ _))
        (Step.add _ _))
      (Step.decRemove _ _)
  ⟨hr, C9_quantity_floor_invariant hr⟩

/-- Adding an item absent from the cart appends a fresh line at quantity 1. -/
lemma addToCart_of_absent (A : Item α) (c : Cart α)
    (habs : ∀ l ∈ c, l.item.id ≠ A.id) :
    ShoppingScreen.addToCart A c = c ++ [⟨A, 1⟩] := by
  have hn : (c.find? fun l => decide (l.item.id = A.id)) = none :=
    List.find?_eq_none.mpr fun x hx => by simpa using habs x hx
  simp [ShoppingScreen.addToCart, hn]

/-- C3: adding an item `A` twice to a cart holding no line with `A`'s
identity yields a cart whose lines with `A`'s identity are exactly one line
for `A` at quantity 2. -/
theorem C3_add_twice_single_line (A : Item α) (c : Cart α)
    (habs : ∀ l ∈ c, l.item.id ≠ A.id) :
    (ShoppingScreen.addToCart A (ShoppingScreen.addToCart A c)).filter
        (fun l => decide (l.item.id = A.id)) = [⟨A, 2⟩] := by
  rw [addToCart_of_absent A c habs]
  have hsome :
      ((c ++ [(⟨A, 1⟩ : CartLine α)]).find?
        fun l => decide (l.item.id = A.id)).isSome = true := by
    rw [List.find?_isSome]
    exact ⟨⟨A, 1⟩, by simp, by simp⟩
  unfold ShoppingScreen.addToCart
  rw [if_pos hsome, List.map_append, List.filter_append]
  have h1 :
      (c.map fun l =>
          if l.item.id = A.id then { l with quantity := l.quantity + 1 }
          else l).filter (fun l => decide (l.item.id = A.id)) = [] := by
    rw [List.filter_eq_nil_iff]
    intro a ha
    rcases List.mem_map.mp ha with ⟨m, hm, rfl⟩
    simp [habs m hm]
  rw [h1]
  norm_num [List.filter_cons]

/-- Witness for C3 at a concrete item and cart. -/
theorem C3_witness :
    (∀ l ∈ c3cart, l.item.id ≠ (⟨3, 2⟩ : Item ℤ).id) ∧
    (ShoppingScreen.addToCart ⟨3, 2⟩ (ShoppingScreen.addToCart ⟨3, 2⟩ c3cart)).filter
        (fun l => decide (l.item.id = (⟨3, 2⟩ : Item ℤ).id)) = [⟨⟨3, 2⟩, 2⟩] :=
  ⟨by decide, C3_add_twice_single_line ⟨3, 2⟩ c3cart (by decide)⟩

/-- In an identity-unique cart, two member lines with the same identity are
the same line. -/
lemma uniq_eq_of_id_eq : ∀ {c : Cart α}, Uniq c → ∀ {l1 l2 : CartLine α},
    l1 ∈ c → l2 ∈ c → l1.item.id = l2.item.id → l1 = l2 := by
  intro c
  induction c with
  | nil => intro _ l1 l2 h1; cases h1
  | cons x xs ih =>
    intro hu l1 l2 h1 h2 hid
    rw [Uniq, List.pairwise_cons] at hu
    rcases List.mem_cons.mp h1 with e1 | h1
    · rcases List.mem_cons.mp h2 with e2 | h2
      · rw [e1, e2]
      · exfalso
        apply hu.1 l2 h2
        rw [← e1]
        exact hid
    · rcases List.mem_cons.mp h2 with e2 | h2
      · exfalso
        apply hu.1 l1 h1
        rw [← e2]
        exact hid.symm
      · exact ih hu.2 h1 h2 hid

/-- C5: on a data-model cart (unique identities, quantities at least 1)
holding a line for identity `A` at quantity 1, the remove-at-zero decrement
deletes that line (no line for `A` remains), and a second decrement of `A`
leaves the cart unchanged. -/
theorem C5_remove_at_zero_deletes (c : Cart α) (A : α) (hu : Uniq c)
    (_hq : QtyPos c) (hm : ∃ l ∈ c, l.item.id = A ∧ l.quantity = 1) :
    (∀ l ∈ ShoppingScreen.decreaseQuantity A c, l.item.id ≠ A) ∧
    ShoppingScreen.decreaseQuantity A (ShoppingScreen.decreaseQuantity A c)
      = ShoppingScreen.decreaseQuantity A c := by
  rcases hm with ⟨m, hmm, hmid, hmq⟩
  have habs : ∀ l ∈ ShoppingScreen.decreaseQuantity A c, l.item.id ≠ A := by
    intro l hl
    unfold ShoppingScreen.decreaseQuantity at hl
    have hpos := (List.mem_filter.mp hl).2
    rcases List.mem_map.mp (List.mem_filter.mp hl).1 with ⟨n, hn, rfl⟩
    intro hid
    by_cases hnid : n.item.id = A
    · have hnm : n = m := uniq_eq_of_id_eq hu hn hmm (hnid.trans hmid.symm)
      subst hnm
      rw [if_pos hnid] at hpos
      simp only [decide_eq_true_eq] at hpos
      omega
    · rw [if_neg hnid] at hid
      exact hnid hid
  refine ⟨habs, ?_⟩
  exact shopDec_of_no_match A _ habs fun l hl =>
    lt_of_lt_of_le one_pos (shopDec_qtypos A c l hl)

/-- Witness for C5 at a concrete cart, deleting the id-1 line. -/
theorem C5_witness :
    Uniq c5cart ∧ QtyPos c5cart ∧
    (∃ l ∈ c5cart, l.item.id = 1 ∧ l.quantity = 1) ∧
    ((∀ l ∈ ShoppingScreen.decreaseQuantity 1 c5cart, l.item.id ≠ 1) ∧
      ShoppingScreen.decreaseQuantity 1 (ShoppingScreen.decreaseQuantity 1 c5cart)
        = ShoppingScreen.decreaseQuantity 1 c5cart) :=
  ⟨by decide, by decide, by decide,
    C5_remove_at_zero_deletes c5cart 1 (by decide) (by decide) (by decide)⟩

/-- C8: the spec's end-to-end scenario, replayed on the shopping screen's
operations: totals after each step are (1,1,10.00), (1,2,20.00),
(2,3,25.50), (2,2,15.50) with the id-1 line retained at quantity 1, and
(1,1,5.50) with the id-1 line removed. -/
theorem C8_scenario :
    computeTotals demoCart1 = ⟨1, 1, 10⟩ ∧
    computeTotals demoCart2 = ⟨1, 2, 20⟩ ∧
    computeTotals demoCart3 = ⟨2, 3, 25.5⟩ ∧
    demoCart4 = [⟨demoItem1, 1⟩, ⟨demoItem2, 1⟩] ∧
    computeTotals demoCart4 = ⟨2, 2, 15.5⟩ ∧
    demoCart5 = [⟨demoItem2, 1⟩] ∧
    computeTotals demoCart5 = ⟨1, 1, 5.5⟩ := by
  have h1 : demoCart1 = [⟨demoItem1, 1⟩] := by
    simp [demoCart1, ShoppingScreen.addToCart]
  have h2 : demoCart2 = [⟨demoItem1, 2⟩] := by
    norm_num [demoCart2, h1, ShoppingScreen.addToCart, demoItem1]
  have h3 : demoCart3 = [⟨demoItem1, 2⟩, ⟨demoItem2, 1⟩] := by
    norm_num [demoCart3, h2, ShoppingScreen.addToCart, demoItem1, demoItem2]
  have h4 : demoCart4 = [⟨demoItem1, 1⟩, ⟨demoItem2, 1⟩] := by
    norm_num [demoCart4, h3, ShoppingScreen.decreaseQuantity, demoItem1,
      demoItem2]
  have h5 : demoCart5 = [⟨demoItem2, 1⟩] := by
    norm_num [demoCart5, h4, ShoppingScreen.decreaseQuantity, demoItem1,
      demoItem2]
  refine ⟨?_, ?_, ?_, h4, ?_, h5, ?_⟩ <;>
    norm_num [h1, h2, h3, h4, h5, computeTotals, CartScreen.totalAmount,
      ShoppingScreen.totalCartItems, demoItem1, demoItem2, Totals.mk.injEq]

end SuperApp
